import Mathlib

/-!
Verification of the two-pass adaptive transcription pipeline
(`src/speechToText/video_transcript.py`, mirrored in the `/transcribe`
route of `src/app2.py`).

The Python code is embedded shallowly: the pure command construction of
`extract_audio` becomes a Lean function on lists of strings; the stateful
pipeline `transcribe` becomes a function from an environment (describing
the behaviour of the external world: file existence, ffmpeg exit codes,
model-load and decode failures, the detected language, the emitted
segments) to a result together with a trace of observable events
(temporary-directory creation/removal, external commands, model handle
acquisition/release, decoding calls, cache purge, transcript write).
-/

namespace TTS

/-- Errors a pipeline run can end in.  `fileNotFound` models the
`sys.exit` on a missing input; `transcodeError` models the
`CalledProcessError` raised by `subprocess.run(..., check=True)` when
ffmpeg exits non-zero; `modelLoadError` models a failure of
`WhisperModel(...)`; `decodeError` models a failure inside a
`model.transcribe(...)` pass. -/
inductive PipelineError where
  | fileNotFound : PipelineError
  | transcodeError : PipelineError
  | modelLoadError : PipelineError
  | decodeError : PipelineError
deriving DecidableEq

/-- The final output of a run: transcript text plus detected language. -/
structure Transcript where
  text : String
  language : String
deriving DecidableEq

/-- Observable events of a pipeline run, in the order they happen.
`decode audio language beamSize vadFilter` records a call
`model.transcribe(audio, language=..., beam_size=..., vad_filter=...)`. -/
inductive Event where
  | mkTempDir : Event
  | runCmd : List String → Event
  | acquireModel : String → Event
  | releaseModel : String → Event
  | decode : String → Option String → Nat → Bool → Event
  | purgeCache : Event
  | removeTempDir : Event
  | writeTranscript : String → Event
deriving DecidableEq

/-- The behaviour of everything external to the pipeline during one run:
whether the input file exists, the exit code ffmpeg returns for a given
command line, which model loads fail, whether the detection pass or the
full transcription pass raises, the language reported by the detection
pass (`none` models Python `None`, `some ""` an empty code), and the
texts of the segments emitted by the full pass, in emission order. -/
structure Env where
  fileExists : Bool
  exitCode : List String → Nat
  loadFails : String → Bool
  detectFails : Bool
  transcribeFails : Bool
  detectedLanguage : Option String
  segments : List String

/-- Embedding of `extract_audio` from `video_transcript.py` (the nested
`extract_audio` in `app2.py` is verbatim identical): the ffmpeg command
line it builds.  Python's `if duration:` is a truthiness test, so the
`-t` cap is appended only for a duration that is given and non-zero. -/
def extract_audio_cmd (video wav : String) (duration : Option Int) : List String :=
  ["ffmpeg", "-hide_banner", "-loglevel", "error", "-y", "-i", video,
   "-ac", "1", "-ar", "16000", "-vn"]
  ++ (match duration with
      | some d => if d = 0 then [] else ["-t", toString d]
      | none => []) ++ [wav]

/-- Embedding of `run` from `video_transcript.py`:
`subprocess.run(cmd, check=True, ...)` raises exactly when the process
exits non-zero; the spec names that failure `TranscodeError`. -/
def runExternal (exitCode : List String → Nat) (cmd : List String) :
    Except PipelineError Unit :=
  if exitCode cmd = 0 then Except.ok () else Except.error PipelineError.transcodeError

/-- Embedding of `extract_audio(video, wav, duration)`: build the command
and run it. -/
def extract_audio (exitCode : List String → Nat) (video wav : String)
    (duration : Option Int) : Except PipelineError Unit :=
  runExternal exitCode (extract_audio_cmd video wav duration)

/-- `lang = info.language or "en"`: Python `or` falls back on falsy
values, i.e. on `None` and on the empty string. -/
def langOf (detected : Option String) : String :=
  match detected with
  | none => "en"
  | some s => if s = "" then "en" else s

/-- `model_id = "small.en" if lang == "en" else "small"`. -/
def fullModelId (lang : String) : String :=
  if lang = "en" then "small.en" else "small"

/-- Python `str.strip()` on the underlying character list: drop leading
and trailing whitespace. -/
def stripChars (l : List Char) : List Char :=
  ((l.dropWhile Char.isWhitespace).reverse.dropWhile Char.isWhitespace).reverse

/-- Python `s.strip()` for a string. -/
def pyStrip (s : String) : String :=
  String.mk (stripChars s.data)

/-- `transcript = " ".join(s.text.strip() for s in segments)`. -/
def joinSegments (segs : List String) : String :=
  String.intercalate " " (segs.map pyStrip)

/-- The ffmpeg command for the full-length artifact:
`extract_audio(video_path, full_wav)` (no duration). -/
def fullCmdOf (videoPath : String) : List String :=
  extract_audio_cmd videoPath "audio_full.wav" none

/-- The ffmpeg command for the 30-second probe artifact:
`extract_audio(video_path, sample_wav, 30)`. -/
def probeCmdOf (videoPath : String) : List String :=
  extract_audio_cmd videoPath "audio_30s.wav" (some 30)

/-- Embedding of `transcribe(video_path)` from `video_transcript.py`.

The event trace mirrors the source line by line: the existence check
exits before anything happens; `with tempfile.TemporaryDirectory()`
guarantees a `removeTempDir` on every path that entered it; the two
`extract_audio` calls run in order and a non-zero exit aborts; the tiny
model is loaded, runs the greedy no-hint detection pass, is dropped with
a forced `gc.collect()` (`releaseModel "tiny"`), and its cache purged;
the full-tier model chosen from the detected language runs the wide-beam
pass; on success the joined transcript is written next to the input.
The full-tier handle's reference is dropped when the function returns
(`releaseModel` as the final event); on an exception path the reference
drop is deferred to frame teardown and is not recorded as an event. -/
def transcribe (env : Env) (videoPath : String) :
    Except PipelineError Transcript × List Event :=
  if env.fileExists = false then
    (Except.error PipelineError.fileNotFound, [])
  else
    let c1 := fullCmdOf videoPath
    let c2 := probeCmdOf videoPath
    if env.exitCode c1 ≠ 0 then
      (Except.error PipelineError.transcodeError,
       [Event.mkTempDir, Event.runCmd c1, Event.removeTempDir])
    else if env.exitCode c2 ≠ 0 then
      (Except.error PipelineError.transcodeError,
       [Event.mkTempDir, Event.runCmd c1, Event.runCmd c2, Event.removeTempDir])
    else if env.loadFails "tiny" then
      (Except.error PipelineError.modelLoadError,
       [Event.mkTempDir, Event.runCmd c1, Event.runCmd c2, Event.removeTempDir])
    else if env.detectFails then
      (Except.error PipelineError.decodeError,
       [Event.mkTempDir, Event.runCmd c1, Event.runCmd c2, Event.acquireModel "tiny",
        Event.decode "audio_30s.wav" none 1 false, Event.removeTempDir])
    else
      let lang := langOf env.detectedLanguage
      let mid := fullModelId lang
      if env.loadFails mid then
        (Except.error PipelineError.modelLoadError,
         [Event.mkTempDir, Event.runCmd c1, Event.runCmd c2, Event.acquireModel "tiny",
          Event.decode "audio_30s.wav" none 1 false, Event.releaseModel "tiny",
          Event.purgeCache, Event.removeTempDir])
      else if env.transcribeFails then
        (Except.error PipelineError.decodeError,
         [Event.mkTempDir, Event.runCmd c1, Event.runCmd c2, Event.acquireModel "tiny",
          Event.decode "audio_30s.wav" none 1 false, Event.releaseModel "tiny",
          Event.purgeCache, Event.acquireModel mid,
          Event.decode "audio_full.wav" (some lang) 5 true, Event.removeTempDir])
      else
        let text := joinSegments env.segments
        (Except.ok { text := text, language := lang },
         [Event.mkTempDir, Event.runCmd c1, Event.runCmd c2, Event.acquireModel "tiny",
          Event.decode "audio_30s.wav" none 1 false, Event.releaseModel "tiny",
          Event.purgeCache, Event.acquireModel mid,
          Event.decode "audio_full.wav" (some lang) 5 true, Event.removeTempDir,
          Event.writeTranscript text, Event.releaseModel mid])

/-- Number of model acquisitions (of any tier) in a trace. -/
def numAcquires (t : List Event) : Nat :=
  t.countP (fun e => match e with | Event.acquireModel _ => true | _ => false)

/-- Number of model releases (of any tier) in a trace. -/
def numReleases (t : List Event) : Nat :=
  t.countP (fun e => match e with | Event.releaseModel _ => true | _ => false)

/-- Number of acquisitions of the model with the given identifier. -/
def acquiresOf (id : String) (t : List Event) : Nat :=
  t.countP (fun e => match e with | Event.acquireModel a => a == id | _ => false)

/-- Number of releases of the model with the given identifier. -/
def releasesOf (id : String) (t : List Event) : Nat :=
  t.countP (fun e => match e with | Event.releaseModel a => a == id | _ => false)

/-- Number of `mkTempDir` events in a trace. -/
def countMk (t : List Event) : Nat :=
  t.countP (fun e => match e with | Event.mkTempDir => true | _ => false)

/-- Number of `removeTempDir` events in a trace. -/
def countRm (t : List Event) : Nat :=
  t.countP (fun e => match e with | Event.removeTempDir => true | _ => false)

/-- Handle discipline of a trace, starting from `live` currently live
handles: a model is only ever acquired when no handle is live and only
released when one is, so at most one handle is live at any point. -/
def wellNested : Nat → List Event → Bool
  | _, [] => true
  | live, Event.acquireModel _ :: rest => live == 0 && wellNested 1 rest
  | live, Event.releaseModel _ :: rest => live == 1 && wellNested 0 rest
  | live, _ :: rest => wellNested live rest

/-- `relBeforeAcq rel acq t` holds when the first release of model `rel`
occurs strictly before the first acquisition of model `acq` in `t`
(vacuously when `acq` is never acquired). -/
def relBeforeAcq (rel acq : String) : List Event → Bool
  | [] => true
  | Event.acquireModel a :: rest =>
      if a == acq then false else relBeforeAcq rel acq rest
  | Event.releaseModel r :: rest =>
      if r == rel then true else relBeforeAcq rel acq rest
  | _ :: rest => relBeforeAcq rel acq rest

/-- The glob pattern `**/openai--whisper-tiny*` of `remove_tiny_cache`
matches a cache entry whose name starts with `openai--whisper-tiny`. -/
def matchesTinyPattern (name : String) : Bool :=
  List.isPrefixOf "openai--whisper-tiny".data name.data

/-- Embedding of `shutil.rmtree(p, ignore_errors=...)` acting on an
abstract cache (a list of entry names): the primitive removal may fail
(per `rmFails`); with `ignoreErrors` set the failure is swallowed and
the cache left as it was, otherwise it is raised. -/
def rmtree (rmFails : String → Bool) (ignoreErrors : Bool)
    (entries : List String) (name : String) : Except String (List String) :=
  if rmFails name then
    if ignoreErrors then Except.ok entries else Except.error name
  else Except.ok (entries.filter (fun e => e ≠ name))

/-- Embedding of `remove_tiny_cache` from `video_transcript.py` (inlined
verbatim in `app2.py`): every cache entry matching the tiny-model glob
is removed with `shutil.rmtree(p, ignore_errors=True)`. -/
def remove_tiny_cache (rmFails : String → Bool) (entries : List String) :
    Except String (List String) :=
  (entries.filter matchesTinyPattern).foldlM
    (fun acc name => rmtree rmFails true acc name) entries

/-- A sample environment in which every external step succeeds, the
detector reports `en` and the full pass emits two segments. -/
def envOk : Env where
  fileExists := true
  exitCode := fun _ => 0
  loadFails := fun _ => false
  detectFails := false
  transcribeFails := false
  detectedLanguage := some "en"
  segments := ["Hello", "world"]

theorem wellNested_take_bound (t : List Event) :
    ∀ live, wellNested live t = true → live ≤ 1 →
    ∀ n, live + numAcquires (t.take n) ≤ numReleases (t.take n) + 1 := by
  induction t with
  | nil =>
      intro live _ hl n
      simp only [List.take_nil, numAcquires, numReleases, List.countP_nil]
      omega
  | cons e rest ih =>
      intro live h hl n
      cases n with
      | zero =>
          simp only [List.take_zero, numAcquires, numReleases, List.countP_nil]
          omega
      | succ m =>
          cases e with
          | acquireModel a =>
              simp only [wellNested, Bool.and_eq_true, beq_iff_eq] at h
              have hrest := ih 1 h.2 (by omega) m
              simp [List.take_succ_cons, numAcquires, numReleases,
                List.countP_cons] at hrest ⊢
              omega
          | releaseModel r =>
              simp only [wellNested, Bool.and_eq_true, beq_iff_eq] at h
              have hrest := ih 0 h.2 (by omega) m
              simp [List.take_succ_cons, numAcquires, numReleases,
                List.countP_cons] at hrest ⊢
              omega
          | mkTempDir =>
              simp only [wellNested] at h
              have hrest := ih live h hl m
              simp [List.take_succ_cons, numAcquires, numReleases,
                List.countP_cons] at hrest ⊢
              omega
          | runCmd c =>
              simp only [wellNested] at h
              have hrest := ih live h hl m
              simp [List.take_succ_cons, numAcquires, numReleases,
                List.countP_cons] at hrest ⊢
              omega
          | decode s l b v =>
              simp only [wellNested] at h
              have hrest := ih live h hl m
              simp [List.take_succ_cons, numAcquires, numReleases,
                List.countP_cons] at hrest ⊢
              omega
          | purgeCache =>
              simp only [wellNested] at h
              have hrest := ih live h hl m
              simp [List.take_succ_cons, numAcquires, numReleases,
                List.countP_cons] at hrest ⊢
              omega
          | removeTempDir =>
              simp only [wellNested] at h
              have hrest := ih live h hl m
              simp [List.take_succ_cons, numAcquires, numReleases,
                List.countP_cons] at hrest ⊢
              omega
          | writeTranscript s =>
              simp only [wellNested] at h
              have hrest := ih live h hl m
              simp [List.take_succ_cons, numAcquires, numReleases,
                List.countP_cons] at hrest ⊢
              omega

theorem transcribe_wellNested (env : Env) (p : String) :
    wellNested 0 (transcribe env p).2 = true := by
  unfold transcribe
  dsimp only
  split_ifs <;> rfl

theorem transcribe_ok (env : Env) (p : String) (tr : Transcript)
    (h : (transcribe env p).1 = Except.ok tr) :
    tr = ⟨joinSegments env.segments, langOf env.detectedLanguage⟩ ∧
    (transcribe env p).2 =
      [Event.mkTempDir, Event.runCmd (fullCmdOf p), Event.runCmd (probeCmdOf p),
       Event.acquireModel "tiny", Event.decode "audio_30s.wav" none 1 false,
       Event.releaseModel "tiny", Event.purgeCache,
       Event.acquireModel (fullModelId (langOf env.detectedLanguage)),
       Event.decode "audio_full.wav" (some (langOf env.detectedLanguage)) 5 true,
       Event.removeTempDir, Event.writeTranscript (joinSegments env.segments),
       Event.releaseModel (fullModelId (langOf env.detectedLanguage))] := by
  unfold transcribe at h ⊢
  dsimp only at h ⊢
  split_ifs at h ⊢
  all_goals simp_all

/-- C1: in every run the live-handle count never exceeds one at any
point of the trace, and in every run that completes, the fast tier
(`tiny`) is acquired and released exactly once, the full tier is
acquired and released exactly once, and the fast handle is released
strictly before the full handle is acquired. -/
theorem c1_handle_lifecycle (env : Env) (p : String) :
    (∀ n, numAcquires (((transcribe env p).2).take n) ≤
          numReleases (((transcribe env p).2).take n) + 1) ∧
    (∀ tr, (transcribe env p).1 = Except.ok tr →
      acquiresOf "tiny" (transcribe env p).2 = 1 ∧
      releasesOf "tiny" (transcribe env p).2 = 1 ∧
      acquiresOf (fullModelId (langOf env.detectedLanguage)) (transcribe env p).2 = 1 ∧
      releasesOf (fullModelId (langOf env.detectedLanguage)) (transcribe env p).2 = 1 ∧
      relBeforeAcq "tiny" (fullModelId (langOf env.detectedLanguage))
        (transcribe env p).2 = true) := by
  constructor
  · intro n
    have h := wellNested_take_bound (transcribe env p).2 0
      (transcribe_wellNested env p) (by omega) n
    omega
  · intro tr htr
    rw [(transcribe_ok env p tr htr).2]
    by_cases hl : langOf env.detectedLanguage = "en"
    · simp only [hl, fullModelId, if_pos rfl]
      refine ⟨rfl, rfl, rfl, rfl, rfl⟩
    · simp only [fullModelId, if_neg hl]
      refine ⟨rfl, rfl, rfl, rfl, rfl⟩

/-- Witness for C1 at a concrete fully-successful run. -/
theorem c1_handle_lifecycle_witness :
    (numAcquires (((transcribe envOk "v.mp4").2).take 8) ≤
     numReleases (((transcribe envOk "v.mp4").2).take 8) + 1) ∧
    acquiresOf "tiny" (transcribe envOk "v.mp4").2 = 1 ∧
    releasesOf "tiny" (transcribe envOk "v.mp4").2 = 1 ∧
    acquiresOf (fullModelId (langOf envOk.detectedLanguage)) (transcribe envOk "v.mp4").2 = 1 ∧
    releasesOf (fullModelId (langOf envOk.detectedLanguage)) (transcribe envOk "v.mp4").2 = 1 ∧
    relBeforeAcq "tiny" (fullModelId (langOf envOk.detectedLanguage))
      (transcribe envOk "v.mp4").2 = true := by
  have h := c1_handle_lifecycle envOk "v.mp4"
  have h2 := h.2 ⟨"Hello world", "en"⟩ rfl
  exact ⟨h.1 8, h2.1, h2.2.1, h2.2.2.1, h2.2.2.2.1, h2.2.2.2.2⟩

/-- A sample environment whose transcoder always fails. -/
def envBadMedia : Env :=
  { envOk with exitCode := fun _ => 1 }

/-- A sample environment for a missing input file. -/
def envMissing : Env :=
  { envOk with fileExists := false }

/-- C2: in every completed run the transcript is exactly the segments in
emission order, each stripped of leading/trailing whitespace, joined
with single spaces — no reordering, no deduplication. -/
theorem c2_segment_concatenation (env : Env) (p : String) (tr : Transcript)
    (h : (transcribe env p).1 = Except.ok tr) :
    tr.text = String.intercalate " " (env.segments.map pyStrip) := by
  have h1 := (transcribe_ok env p tr h).1
  subst h1
  rfl

/-- Witness for C2: segments `["Hello", "world"]` give `"Hello world"`. -/
theorem c2_segment_concatenation_witness :
    (Transcript.mk "Hello world" "en").text =
      String.intercalate " " ((["Hello", "world"] : List String).map pyStrip) := by
  exact c2_segment_concatenation envOk "v.mp4" (Transcript.mk "Hello world" "en") rfl

/-- C3: in every completed run the output language is the detected code
with `en` substituted for an empty/null detection; an empty/null
detection loads `small.en`, a non-English non-empty code loads `small`,
and the full-tier model acquired is always `fullModelId` of the output
language — a function of the detected code alone. -/
theorem c3_language_fallback (env : Env) (p : String) (tr : Transcript)
    (h : (transcribe env p).1 = Except.ok tr) :
    tr.language = langOf env.detectedLanguage ∧
    (env.detectedLanguage = none ∨ env.detectedLanguage = some "" →
      tr.language = "en" ∧ Event.acquireModel "small.en" ∈ (transcribe env p).2) ∧
    (∀ c, env.detectedLanguage = some c → c ≠ "" → c ≠ "en" →
      Event.acquireModel "small" ∈ (transcribe env p).2) ∧
    Event.acquireModel (fullModelId tr.language) ∈ (transcribe env p).2 := by
  obtain ⟨h1, h2⟩ := transcribe_ok env p tr h
  subst h1
  rw [h2]
  refine ⟨rfl, ?_, ?_, by simp⟩
  · rintro (hd | hd) <;> simp [langOf, hd, fullModelId]
  · intro c hd hc hce
    simp [langOf, hd, if_neg hc, fullModelId, if_neg hce]

/-- Witness for C3 at a run whose detector reports `None`. -/
theorem c3_language_fallback_witness :
    (Transcript.mk "Hello world" "en").language = "en" ∧
    Event.acquireModel "small.en" ∈
      (transcribe { envOk with detectedLanguage := none } "v.mp4").2 := by
  have h := c3_language_fallback { envOk with detectedLanguage := none } "v.mp4"
    (Transcript.mk "Hello world" "en") rfl
  exact h.2.1 (Or.inl rfl)

/-- C5: if either transcoding invocation exits non-zero the run fails
with the transcode error and the trace contains no model acquisition of
any tier. -/
theorem c5_no_model_on_transcode_failure (env : Env) (p : String)
    (hex : env.fileExists = true)
    (h : env.exitCode (fullCmdOf p) ≠ 0 ∨ env.exitCode (probeCmdOf p) ≠ 0) :
    (transcribe env p).1 = Except.error PipelineError.transcodeError ∧
    numAcquires (transcribe env p).2 = 0 := by
  unfold transcribe
  dsimp only
  rcases h with h | h
  · rw [if_neg (by simp [hex]), if_pos h]
    exact ⟨rfl, rfl⟩
  · rw [if_neg (by simp [hex])]
    by_cases h1 : env.exitCode (fullCmdOf p) ≠ 0
    · rw [if_pos h1]
      exact ⟨rfl, rfl⟩
    · rw [if_neg h1, if_pos h]
      exact ⟨rfl, rfl⟩

/-- Witness for C5: an always-failing transcoder acquires no model. -/
theorem c5_no_model_on_transcode_failure_witness :
    (transcribe envBadMedia "not_a_video.mp4").1 =
      Except.error PipelineError.transcodeError ∧
    numAcquires (transcribe envBadMedia "not_a_video.mp4").2 = 0 := by
  exact c5_no_model_on_transcode_failure envBadMedia "not_a_video.mp4" rfl
    (Or.inl (by decide))

/-- C6: in every run the trace holds as many temporary-directory
removals as creations, and whenever the scoped temporary directory was
created — including runs that fail at any later stage — it is removed. -/
theorem c6_cleanup_on_every_path (env : Env) (p : String) :
    countMk (transcribe env p).2 = countRm (transcribe env p).2 ∧
    (Event.mkTempDir ∈ (transcribe env p).2 →
      Event.removeTempDir ∈ (transcribe env p).2) := by
  unfold transcribe
  dsimp only
  split_ifs <;> exact ⟨rfl, by simp⟩

/-- Witness for C6 at a run that fails during the full pass. -/
theorem c6_cleanup_on_every_path_witness :
    countMk (transcribe { envOk with transcribeFails := true } "v.mp4").2 =
      countRm (transcribe { envOk with transcribeFails := true } "v.mp4").2 ∧
    Event.removeTempDir ∈ (transcribe { envOk with transcribeFails := true } "v.mp4").2 := by
  have h := c6_cleanup_on_every_path { envOk with transcribeFails := true } "v.mp4"
  exact ⟨h.1, h.2 (by decide)⟩

/-- C7: every decoding call on the probe artifact uses beam width 1, no
language hint and no voice-activity filter; every decoding call on the
full artifact uses beam width 5, the voice-activity filter, and the
language fixed to the detected code; and a completed run makes both
calls. -/
theorem c7_decode_pass_parameters (env : Env) (p : String) :
    (∀ lg b v, Event.decode "audio_30s.wav" lg b v ∈ (transcribe env p).2 →
        lg = none ∧ b = 1 ∧ v = false) ∧
    (∀ lg b v, Event.decode "audio_full.wav" lg b v ∈ (transcribe env p).2 →
        lg = some (langOf env.detectedLanguage) ∧ b = 5 ∧ v = true) ∧
    (∀ tr, (transcribe env p).1 = Except.ok tr →
        Event.decode "audio_30s.wav" none 1 false ∈ (transcribe env p).2 ∧
        Event.decode "audio_full.wav" (some (langOf env.detectedLanguage)) 5 true ∈
          (transcribe env p).2) := by
  refine ⟨?_, ?_, ?_⟩
  · intro lg b v hmem
    unfold transcribe at hmem
    dsimp only at hmem
    split_ifs at hmem <;> simp_all
  · intro lg b v hmem
    unfold transcribe at hmem
    dsimp only at hmem
    split_ifs at hmem <;> simp_all
  · intro tr htr
    rw [(transcribe_ok env p tr htr).2]
    simp

/-- Witness for C7 at a concrete completed run. -/
theorem c7_decode_pass_parameters_witness :
    (Event.decode "audio_30s.wav" none 1 false ∈ (transcribe envOk "v.mp4").2 ∧
     Event.decode "audio_full.wav" (some (langOf envOk.detectedLanguage)) 5 true ∈
       (transcribe envOk "v.mp4").2) ∧
    ((none : Option String) = none ∧ 1 = 1 ∧ false = false) := by
  have h := c7_decode_pass_parameters envOk "v.mp4"
  have h3 := h.2.2 (Transcript.mk "Hello world" "en") rfl
  exact ⟨⟨h3.1, h3.2⟩, h.1 none 1 false h3.1⟩

/-- C10: with a non-existent input path the pipeline stops with the
file-not-found error and an empty trace: no temporary directory, no
transcoder invocation, no model load. -/
theorem c10_missing_input_no_side_effects (env : Env) (p : String)
    (h : env.fileExists = false) :
    transcribe env p = (Except.error PipelineError.fileNotFound, []) ∧
    numAcquires (transcribe env p).2 = 0 ∧
    countMk (transcribe env p).2 = 0 ∧
    (∀ c, Event.runCmd c ∉ (transcribe env p).2) := by
  have h1 : transcribe env p = (Except.error PipelineError.fileNotFound, []) := by
    unfold transcribe
    rw [if_pos h]
  refine ⟨h1, ?_, ?_, ?_⟩ <;> rw [h1] <;> simp [numAcquires, countMk]

/-- Witness for C10. -/
theorem c10_missing_input_no_side_effects_witness :
    transcribe envMissing "ghost.mp4" = (Except.error PipelineError.fileNotFound, []) ∧
    Event.runCmd ["ffmpeg"] ∉ (transcribe envMissing "ghost.mp4").2 := by
  have h := c10_missing_input_no_side_effects envMissing "ghost.mp4" rfl
  exact ⟨h.1, h.2.2.2 ["ffmpeg"]⟩

/-- C4 as stated is refuted at `max_duration = 0`: the duration is
given, yet Python's truthiness test drops the cap and the command equals
the uncapped one. -/
theorem c4_counterexample_zero_duration :
    extract_audio_cmd "clip.mp4" "out.wav" (some 0) =
      extract_audio_cmd "clip.mp4" "out.wav" none ∧
    "-t" ∉ extract_audio_cmd "clip.mp4" "out.wav" (some 0) := by
  exact ⟨rfl, by decide⟩

/-- C4 (amended): the transcoding command forces one audio channel and a
16000 Hz rate, strips video, ends in the output path, appends the
duration cap when a *non-zero* duration is given, and the invocation
fails with the transcode error exactly when the process exits
non-zero. -/
theorem c4_normalize_contract (ec : List String → Nat) (video wav : String)
    (d : Option Int) :
    List.IsInfix ["-ac", "1"] (extract_audio_cmd video wav d) ∧
    List.IsInfix ["-ar", "16000"] (extract_audio_cmd video wav d) ∧
    "-vn" ∈ extract_audio_cmd video wav d ∧
    (∃ pre, extract_audio_cmd video wav d = pre ++ [wav]) ∧
    (∀ k : Int, d = some k → k ≠ 0 →
      List.IsInfix ["-t", toString k] (extract_audio_cmd video wav d)) ∧
    (extract_audio ec video wav d = Except.error PipelineError.transcodeError ↔
      ec (extract_audio_cmd video wav d) ≠ 0) := by
  refine ⟨?_, ?_, ?_, ?_, ?_, ?_⟩
  · exact ⟨["ffmpeg", "-hide_banner", "-loglevel", "error", "-y", "-i", video],
      ["-ar", "16000", "-vn"] ++ (match d with
        | some k => if k = 0 then [] else ["-t", toString k]
        | none => []) ++ [wav], by simp [extract_audio_cmd]⟩
  · exact ⟨["ffmpeg", "-hide_banner", "-loglevel", "error", "-y", "-i", video,
      "-ac", "1"], ["-vn"] ++ (match d with
        | some k => if k = 0 then [] else ["-t", toString k]
        | none => []) ++ [wav], by simp [extract_audio_cmd]⟩
  · simp [extract_audio_cmd]
  · exact ⟨["ffmpeg", "-hide_banner", "-loglevel", "error", "-y", "-i", video,
      "-ac", "1", "-ar", "16000", "-vn"] ++ (match d with
        | some k => if k = 0 then [] else ["-t", toString k]
        | none => []), by simp [extract_audio_cmd]⟩
  · intro k hk hk0
    subst hk
    refine ⟨["ffmpeg", "-hide_banner", "-loglevel", "error", "-y", "-i", video,
      "-ac", "1", "-ar", "16000", "-vn"], [wav], ?_⟩
    simp [extract_audio_cmd, if_neg hk0]
  · unfold extract_audio runExternal
    split_ifs with h0 <;> simp [h0]

/-- Witness for the C4 contract at a failing transcoder and a 5-second
cap. -/
theorem c4_normalize_contract_witness :
    List.IsInfix ["-t", toString (5 : Int)]
      (extract_audio_cmd "clip.mp4" "out.wav" (some 5)) ∧
    (extract_audio (fun _ => 1) "clip.mp4" "out.wav" (some 5) =
        Except.error PipelineError.transcodeError ↔
      (fun _ => (1 : Nat)) (extract_audio_cmd "clip.mp4" "out.wav" (some 5)) ≠ 0) := by
  have h := c4_normalize_contract (fun _ => 1) "clip.mp4" "out.wav" (some 5)
  exact ⟨h.2.2.2.2.1 5 rfl (by decide), h.2.2.2.2.2⟩

/-- C9: a zero duration yields exactly the command of the no-duration
call — the `-t` cap is added only for non-zero durations. -/
theorem c9_zero_duration_uncapped (video wav : String) :
    extract_audio_cmd video wav (some 0) = extract_audio_cmd video wav none ∧
    (∀ k : Int, k ≠ 0 →
      List.IsInfix ["-t", toString k] (extract_audio_cmd video wav (some k))) := by
  refine ⟨rfl, ?_⟩
  intro k hk
  refine ⟨["ffmpeg", "-hide_banner", "-loglevel", "error", "-y", "-i", video,
    "-ac", "1", "-ar", "16000", "-vn"], [wav], ?_⟩
  simp [extract_audio_cmd, if_neg hk]

/-- Witness for C9 at durations 0 and 30. -/
theorem c9_zero_duration_uncapped_witness :
    extract_audio_cmd "clip2.mp4" "audio.wav" (some 0) =
      extract_audio_cmd "clip2.mp4" "audio.wav" none ∧
    List.IsInfix ["-t", toString (30 : Int)]
      (extract_audio_cmd "clip2.mp4" "audio.wav" (some 30)) ∧
    "-t" ∉ extract_audio_cmd "clip2.mp4" "audio.wav" (some 0) := by
  have h := c9_zero_duration_uncapped "clip2.mp4" "audio.wav"
  exact ⟨h.1, h.2 30 (by decide), by decide⟩

theorem tiny_cache_foldlM_ok (rmFails : String → Bool) :
    ∀ (names acc : List String),
      names.foldlM (fun acc name => rmtree rmFails true acc name) acc =
        Except.ok (names.foldl (fun acc name =>
          if rmFails name then acc else acc.filter (fun e => e ≠ name)) acc) := by
  intro names
  induction names with
  | nil => intro acc; rfl
  | cons n rest ih =>
      intro acc
      by_cases h : rmFails n = true
      · simp only [List.foldlM_cons, List.foldl_cons, rmtree, h, if_true]
        exact ih acc
      · simp only [List.foldlM_cons, List.foldl_cons, rmtree, h, if_false,
          Bool.false_eq_true]
        exact ih _

theorem mem_purge_foldl (rmFails : String → Bool) :
    ∀ (names acc : List String) (e : String), e ∈ acc → (∀ n ∈ names, e ≠ n) →
      e ∈ names.foldl (fun acc name =>
        if rmFails name then acc else acc.filter (fun x => x ≠ name)) acc := by
  intro names
  induction names with
  | nil =>
      intro acc e he _
      simpa using he
  | cons n rest ih =>
      intro acc e he hne
      simp only [List.foldl_cons]
      apply ih
      · split_ifs with h
        · exact he
        · simp only [List.mem_filter, he, true_and, decide_eq_true_eq]
          exact hne n (by simp)
      · intro m hm
        exact hne m (by simp [hm])

/-- C8: purging the fast-tier cache never raises — a failed removal is
swallowed and the result is still a success — and every entry not
matching the tiny-model glob survives the purge. -/
theorem c8_purge_never_raises (rmFails : String → Bool) (entries : List String) :
    (∃ res, remove_tiny_cache rmFails entries = Except.ok res) ∧
    (∀ res, remove_tiny_cache rmFails entries = Except.ok res →
      ∀ e ∈ entries, matchesTinyPattern e = false → e ∈ res) := by
  unfold remove_tiny_cache
  rw [tiny_cache_foldlM_ok]
  refine ⟨⟨_, rfl⟩, ?_⟩
  intro res hres e he hmatch
  injection hres with hres
  rw [← hres]
  apply mem_purge_foldl rmFails _ _ _ he
  intro m hm hcontr
  subst hcontr
  have hmem := (List.mem_filter.mp hm).2
  rw [hmatch] at hmem
  exact Bool.false_ne_true hmem

/-- Witness for C8: with a removal oracle that always fails, the purge
still succeeds and the non-matching entry survives. -/
theorem c8_purge_never_raises_witness :
    remove_tiny_cache (fun _ => true)
      ["openai--whisper-tiny-main", "models--small"] =
      Except.ok ["openai--whisper-tiny-main", "models--small"] ∧
    "models--small" ∈ (["openai--whisper-tiny-main", "models--small"] : List String) := by
  refine ⟨rfl, ?_⟩
  exact (c8_purge_never_raises (fun _ => true)
      ["openai--whisper-tiny-main", "models--small"]).2
    ["openai--whisper-tiny-main", "models--small"] rfl
    "models--small" (by decide) (by decide)

end TTS
